import Mathlib

/-!
Shallow embedding of `src/train.py` (MuGeminorum/Piano-Classification).

The script is a sequential training loop over opaque ML-framework objects.
We embed its control flow and bookkeeping faithfully:

* losses are rationals (`ℚ`) standing for Python floats; an accuracy is
  an `Option ℚ`, `none` standing for the `nan` that sklearn's
  `accuracy_score` yields on empty input;
* loaders are lists of batches, a batch is a list of samples `{mel, label}`;
* the model, criterion, optimizer and scheduler are opaque: the per-batch
  loss value, the per-epoch prediction function and the scheduler transition
  are parameters of the embedding (`Env`), exactly as they are opaque
  library objects to the script;
* the Python local variable `loss` (function-scoped, bound by the batch
  loop) is an `Option ℚ`, so that `scheduler.step(loss.item())` on a never
  bound variable is a `NameError`, modelled as `Except.error`;
* the order of observable actions inside an epoch (reading the learning
  rate, processing batches, the two accuracy evaluations, the scheduler
  step) is recorded in an event trace.

Line numbers below refer to `src/train.py`.
-/

namespace Train

/-- A data item yielded by a loader: the script reads `data["mel"]` and
`data["label"]` (lines 20-21, 35-36, 50-51).  `α` is the opaque tensor type
of the mel spectrogram; labels are class indices. -/
structure Sample (α : Type) where
  mel : α
  label : ℕ
  deriving DecidableEq, Repr

/-- The `y_true, y_pred` accumulation loop shared by `eval_model_train`,
`eval_model_valid` and `eval_model_test` (lines 18-25, 33-40, 48-55):
for each batch, `y_true.extend(labels)` and `y_pred.extend(predicted)`.
`predict` stands for `lambda x: torch.max(model.forward(x).data, 1)[1]`,
the model being opaque. -/
def collectLabels {α : Type} (predict : α → ℕ) (loader : List (List (Sample α))) :
    List ℕ × List ℕ :=
  loader.foldl
    (fun acc batch =>
      (acc.1 ++ batch.map Sample.label, acc.2 ++ batch.map fun d => predict d.mel))
    ([], [])

/-- Modelled from the source's call to `sklearn.metrics.accuracy_score`
(lines 27, 42): the fraction of positions where the two label sequences
agree.  On empty input sklearn computes `np.average` of an empty array,
which is `nan` (the RuntimeWarning is suppressed by
`warnings.filterwarnings("ignore")`, line 223): `none` stands for that
`nan`, `some q` for an ordinary float value. -/
def accuracy_score (y_true y_pred : List ℕ) : Option ℚ :=
  if y_true.length = 0 then none
  else some ((((y_true.zip y_pred).countP fun p => p.1 == p.2) : ℚ) / (y_true.length : ℚ))

/-- The accuracy value computed and appended by `eval_model_train` /
`eval_model_valid` (lines 27-29, 42-44): `100.0 * accuracy_score(...)`
(and `100.0 * nan` is again `nan`). -/
def evalAccVal {α : Type} (predict : α → ℕ) (loader : List (List (Sample α))) : Option ℚ :=
  (accuracy_score (collectLabels predict loader).1 (collectLabels predict loader).2).map
    fun a => 100 * a

/-- `eval_model_train` (lines 17-29): collects true/predicted labels over the
training loader and appends `100.0 * accuracy_score` to `tra_acc_list`. -/
def eval_model_train {α : Type} (predict : α → ℕ) (trainLoader : List (List (Sample α)))
    (tra_acc_list : List (Option ℚ)) : List (Option ℚ) :=
  tra_acc_list ++ [evalAccVal predict trainLoader]

/-- `eval_model_valid` (lines 32-44): textually the same computation as
`eval_model_train` on the validation loader, appending to `val_acc_list`. -/
def eval_model_valid {α : Type} (predict : α → ℕ) (validationLoader : List (List (Sample α)))
    (val_acc_list : List (Option ℚ)) : List (Option ℚ) :=
  val_acc_list ++ [evalAccVal predict validationLoader]

/-- Per-class metrics row of the classification report (`recall_score`
is sklearn's name for the recall metric; `recall` is a reserved word
here). -/
structure ClsMetrics where
  precision : ℚ
  recall_score : ℚ
  f1 : ℚ
  support : ℕ
  deriving DecidableEq, Repr

/-- Modelled from the source's call to
`sklearn.metrics.classification_report` (line 57): for each class `c`,
precision `TP/(TP+FP)`, recall `TP/(TP+FN)` and F1 `2PR/(P+R)`, with
sklearn's `zero_division=0` convention matching `ℚ`'s division by zero.
The string formatting of the report is abstracted to structured rows. -/
def classification_report (y_true y_pred : List ℕ) (numClasses : ℕ) : List ClsMetrics :=
  (List.range numClasses).map fun c =>
    let pairs := y_true.zip y_pred
    let tp : ℚ := (pairs.countP fun p => p.1 == c && p.2 == c : ℕ)
    let fp : ℚ := (pairs.countP fun p => p.1 != c && p.2 == c : ℕ)
    let fn : ℚ := (pairs.countP fun p => p.1 == c && p.2 != c : ℕ)
    let prec : ℚ := tp / (tp + fp)
    let rcl : ℚ := tp / (tp + fn)
    { precision := prec
    , recall_score := rcl
    , f1 := 2 * prec * rcl / (prec + rcl)
    , support := pairs.countP fun p => p.1 == c }

/-- Modelled from the source's call to
`sklearn.metrics.confusion_matrix(y_true, y_pred, normalize="all")`
(line 58): entry `(a, b)` is the number of samples with true label `a` and
predicted label `b`, divided by the total number of samples. -/
def confusion_matrix_all (y_true y_pred : List ℕ) (a b : ℕ) : ℚ :=
  (((y_true.zip y_pred).count (a, b)) : ℚ) / (((y_true.zip y_pred).length) : ℚ)

/-- The label index set of the confusion matrix: sklearn infers the labels
as the distinct values occurring in `y_true` or `y_pred`. -/
def cmLabelSet (y_true y_pred : List ℕ) : Finset ℕ :=
  (y_true ++ y_pred).toFinset

/-- `eval_model_test` (lines 47-60): one pass over the test loader
collecting `y_true, y_pred`, then the classification report and the
all-normalized confusion matrix. -/
def eval_model_test {α : Type} (predict : α → ℕ) (testLoader : List (List (Sample α)))
    (classes : List String) : List ClsMetrics × (ℕ → ℕ → ℚ) :=
  (classification_report (collectLabels predict testLoader).1
      (collectLabels predict testLoader).2 classes.length,
   confusion_matrix_all (collectLabels predict testLoader).1
      (collectLabels predict testLoader).2)

/-- Observable actions of the epoch loop, in program order. -/
inductive Event where
  | lrLog (lr : ℚ)
  | batch (i : ℕ) (lossVal : ℚ)
  | evalTrain (acc : Option ℚ)
  | evalValid (acc : Option ℚ)
  | sched (lossVal : ℚ)
  deriving DecidableEq, Repr

/-- Returns `true` exactly on `Event.sched` events. -/
def Event.isSched : Event → Bool
  | Event.sched _ => true
  | _ => false

/-- The mutable state of `train` (lines 125-204): the four tracking lists,
the `running_loss` accumulator, the function-scoped Python local `loss`
(unbound ↦ `none`), the opaque optimizer/scheduler state `σ`, and the
event trace. -/
structure TrainState (σ : Type) where
  tra_acc_list : List (Option ℚ)
  val_acc_list : List (Option ℚ)
  loss_list : List ℚ
  lr_list : List ℚ
  running_loss : ℚ
  lossVar : Option ℚ
  sched : σ
  trace : List Event
  deriving DecidableEq, Repr

/-- The opaque collaborators of `train`: the loaders, the model's
prediction function as it stands after the batch phase of epoch `e`
(`predictAt e`), the loss value `criterion(model(inputs), labels).item()`
of batch `i` in epoch `e` (`lossOf e i`), the hyperparameters, and the
optimizer/scheduler pair (`getLr` reads `optimizer.param_groups[0]["lr"]`,
`schedStep` is `scheduler.step(·)` which may adjust the rate). -/
structure Env (α σ : Type) where
  traLoader : List (List (Sample α))
  valLoader : List (List (Sample α))
  predictAt : ℕ → α → ℕ
  lossOf : ℕ → ℕ → ℚ
  epoch_num : ℕ
  iteration : ℕ
  getLr : σ → ℚ
  schedStep : σ → ℚ → σ
  sched0 : σ

/-- Body of the batch loop (lines 175-200) for batch index `i` of epoch
`e`: accumulate `running_loss += loss.item()`; if
`i % iteration == iteration - 1`, append `running_loss / iteration` to
`loss_list`; then — unconditionally, since line 200 sits at loop level,
outside the `if` — reset `running_loss = 0.0`.  The Python local `loss`
is (re)bound on every iteration. -/
def batchBody {α σ : Type} (env : Env α σ) (e i : ℕ) (s : TrainState σ) : TrainState σ :=
  let lossVal := env.lossOf e i
  let running := s.running_loss + lossVal
  { s with
      loss_list := s.loss_list ++
        (if i % env.iteration == env.iteration - 1
          then [running / (env.iteration : ℚ)] else []),
      running_loss := 0,
      lossVar := some lossVal,
      trace := s.trace ++ [Event.batch i lossVal] }

/-- `for i, data in enumerate(traLoader, 0): ...` (line 175): `m` batches
remain, the next one has index `i`. -/
def batchLoopAux {α σ : Type} (env : Env α σ) (e : ℕ) :
    ℕ → ℕ → TrainState σ → TrainState σ
  | 0, _, s => s
  | m + 1, i, s => batchLoopAux env e m (i + 1) (batchBody env e i s)

/-- Start of an epoch (lines 169-173): read the current learning rate from
the optimizer, append it to `lr_list`, and set `running_loss = 0.0`. -/
def startEpoch {α σ : Type} (env : Env α σ) (s : TrainState σ) : TrainState σ :=
  { s with
      lr_list := s.lr_list ++ [env.getLr s.sched],
      running_loss := 0,
      trace := s.trace ++ [Event.lrLog (env.getLr s.sched)] }

/-- State after the batch phase of epoch `e` (lines 169-200). -/
def afterBatches {α σ : Type} (env : Env α σ) (e : ℕ) (s : TrainState σ) : TrainState σ :=
  batchLoopAux env e env.traLoader.length 0 (startEpoch env s)

/-- State after the two per-epoch accuracy evaluations (lines 202-203):
`eval_model_train` then `eval_model_valid`, each appending one value. -/
def afterEvals {α σ : Type} (env : Env α σ) (e : ℕ) (s : TrainState σ) : TrainState σ :=
  let s3 := afterBatches env e s
  { s3 with
      tra_acc_list := eval_model_train (env.predictAt e) env.traLoader s3.tra_acc_list,
      val_acc_list := eval_model_valid (env.predictAt e) env.valLoader s3.val_acc_list,
      trace := s3.trace ++
        [Event.evalTrain (evalAccVal (env.predictAt e) env.traLoader),
         Event.evalValid (evalAccVal (env.predictAt e) env.valLoader)] }

/-- The uncaught exception raised by `scheduler.step(loss.item())`
(line 204) when the batch loop never bound `loss`. -/
def nameError : String := "NameError: name loss is not defined"

/-- One iteration of the epoch loop (lines 167-204): log the learning
rate, run the batches, evaluate train/validation accuracy, then
`scheduler.step(loss.item())` — a `NameError` if `loss` was never bound. -/
def epochBody {α σ : Type} (env : Env α σ) (e : ℕ) (s : TrainState σ) :
    Except String (TrainState σ) :=
  match (afterEvals env e s).lossVar with
  | none => Except.error nameError
  | some v =>
      Except.ok
        { afterEvals env e s with
            sched := env.schedStep (afterEvals env e s).sched v,
            trace := (afterEvals env e s).trace ++ [Event.sched v] }

/-- `for epoch in range(epoch_num)` (line 167): `n` epochs remain, the
next one is epoch `e`; the first raised exception aborts the run. -/
def epochLoop {α σ : Type} (env : Env α σ) :
    ℕ → ℕ → TrainState σ → Except String (TrainState σ)
  | 0, _, s => Except.ok s
  | n + 1, e, s =>
      match epochBody env e s with
      | Except.error msg => Except.error msg
      | Except.ok s2 => epochLoop env n (e + 1) s2

/-- Initial state of `train` (line 127): empty tracking lists, `loss`
unbound, scheduler in its initial state. -/
def initState {σ : Type} (sched0 : σ) : TrainState σ :=
  { tra_acc_list := []
  , val_acc_list := []
  , loss_list := []
  , lr_list := []
  , running_loss := 0
  , lossVar := none
  , sched := sched0
  , trace := [] }

/-- The training phase of `train` (lines 127, 167-204): the full epoch
loop from the initial state. -/
def runTrain {α σ : Type} (env : Env α σ) : Except String (TrainState σ) :=
  epochLoop env env.epoch_num 0 (initState env.sched0)

/-- The scheduler state entering epoch `e`: `scheduler.step` is applied
once at the end of every earlier epoch, with that epoch's final batch
loss. -/
def schedStateAt {α σ : Type} (env : Env α σ) : ℕ → σ
  | 0 => env.sched0
  | e + 1 => env.schedStep (schedStateAt env e) (env.lossOf e (env.traLoader.length - 1))

/-- The `loss_list` entries recorded during epoch `e`: one entry per batch
index `i` with `i % iteration == iteration - 1`, whose value is that single
batch's loss divided by `iteration` (the accumulator having been reset
after every batch by line 200). -/
def lossEntries {α σ : Type} (env : Env α σ) (e : ℕ) : List ℚ :=
  ((List.range env.traLoader.length).filter
      fun i => i % env.iteration == env.iteration - 1).map
    fun i => env.lossOf e i / (env.iteration : ℚ)

/-- The event trace of epoch `e` of a completed run. -/
def epochEvents {α σ : Type} (env : Env α σ) (e : ℕ) : List Event :=
  Event.lrLog (env.getLr (schedStateAt env e)) ::
    ((List.range env.traLoader.length).map fun i => Event.batch i (env.lossOf e i)) ++
    [Event.evalTrain (evalAccVal (env.predictAt e) env.traLoader),
     Event.evalValid (evalAccVal (env.predictAt e) env.valLoader),
     Event.sched (env.lossOf e (env.traLoader.length - 1))]

/-- Closed form of the training state after `k` completed epochs (valid
when the training loader is non-empty). -/
def trainSpec {α σ : Type} (env : Env α σ) (k : ℕ) : TrainState σ :=
  { tra_acc_list := (List.range k).map fun e => evalAccVal (env.predictAt e) env.traLoader
  , val_acc_list := (List.range k).map fun e => evalAccVal (env.predictAt e) env.valLoader
  , loss_list := (List.range k).flatMap fun e => lossEntries env e
  , lr_list := (List.range k).map fun e => env.getLr (schedStateAt env e)
  , running_loss := 0
  , lossVar :=
      if k = 0 then none else some (env.lossOf (k - 1) (env.traLoader.length - 1))
  , sched := schedStateAt env k
  , trace := (List.range k).flatMap fun e => epochEvents env e }

/-- The data rows written to `loss.csv` by `save_history` (lines 110-115):
`for i in range(len(loss_list)): writer.writerow([loss_list[i]])`. -/
def lossCsvDataRows (loss_list : List ℚ) : List (List ℚ) :=
  (List.range loss_list.length).map fun i => [loss_list.getD i 0]

/-- Modelled from the source's `argparse` declaration
`parser.add_argument("--fl", type=bool, default=True)` (line 226):
`argparse` applies Python's `bool()` builtin to the command-line string,
which is `False` only on the empty string. -/
def pyBool (s : String) : Bool := !s.isEmpty

/-- The two loss criteria the script can select (line 139). -/
inductive Criterion where
  | focalLoss
  | crossEntropyLoss
  deriving DecidableEq, Repr

/-- Line 139: `criterion = FocalLoss(num_samples) if args.fl else
nn.CrossEntropyLoss()`. -/
def chooseCriterion (fl : Bool) : Criterion :=
  if fl then Criterion.focalLoss else Criterion.crossEntropyLoss

/-- A batch index `i` triggers a `loss_list` append exactly when the next
index is a multiple of `iteration`. -/
theorem mod_eq_pred_iff_dvd (it n : ℕ) (hit : 0 < it) :
    n % it = it - 1 ↔ it ∣ n + 1 := by
  constructor
  · intro h
    have hd := Nat.div_add_mod n it
    have hc : it * (n / it + 1) = it * (n / it) + it := by ring
    refine ⟨n / it + 1, ?_⟩
    omega
  · rintro ⟨k, hk⟩
    have hd := Nat.div_add_mod n it
    have hm : n % it < it := Nat.mod_lt n hit
    have hdvd : it ∣ n % it + 1 := by
      have hs : n % it + 1 = it * k - it * (n / it) := by omega
      rw [hs]
      exact Nat.dvd_sub' (Dvd.intro k rfl) (Dvd.intro (n / it) rfl)
    have hle : it ≤ n % it + 1 := Nat.le_of_dvd (Nat.succ_pos _) hdvd
    omega

/-- Among the batch indices `0, ..., n-1`, exactly `n / it` satisfy
`i % it = it - 1`. -/
theorem countP_range_mod (it : ℕ) (hit : 0 < it) (n : ℕ) :
    (List.range n).countP (fun i => i % it == it - 1) = n / it := by
  induction n with
  | zero => simp
  | succ n ih =>
      rw [List.range_succ, List.countP_append, ih, Nat.succ_div]
      by_cases h : n % it = it - 1
      · rw [if_pos ((mod_eq_pred_iff_dvd it n hit).mp h)]
        simp [h]
      · rw [if_neg (fun hd => h ((mod_eq_pred_iff_dvd it n hit).mpr hd))]
        simp [h]

/-- Closed form of the batch loop: starting at index `i` with a zeroed
accumulator and `m` batches to go, it appends one `loss_list` entry —
that single batch's loss over `iteration` — per qualifying index, rebinds
`loss` to each batch's loss in turn, and leaves the accumulator at zero. -/
theorem batchLoopAux_spec {α σ : Type} (env : Env α σ) (e : ℕ) :
    ∀ (m i : ℕ) (s : TrainState σ), s.running_loss = 0 →
      batchLoopAux env e m i s =
        { s with
            running_loss := 0,
            loss_list := s.loss_list ++
              (((List.range' i m).filter fun j => j % env.iteration == env.iteration - 1).map
                fun j => env.lossOf e j / (env.iteration : ℚ)),
            lossVar := if m = 0 then s.lossVar else some (env.lossOf e (i + m - 1)),
            trace := s.trace ++ (List.range' i m).map fun j => Event.batch j (env.lossOf e j) }
  | 0, i, s, h => by
      cases s
      simp_all [batchLoopAux, List.range']
  | m + 1, i, s, h => by
      rw [batchLoopAux,
        batchLoopAux_spec env e m (i + 1) (batchBody env e i s) (by simp [batchBody])]
      cases s
      simp only [batchBody] at *
      subst h
      by_cases hc : (i % env.iteration == env.iteration - 1)
      · cases m with
        | zero =>
            simp [hc, List.range'_succ, List.filter_cons, List.range']
        | succ m =>
            simp [hc, List.range'_succ, List.filter_cons]
            congr 1
            omega
      · cases m with
        | zero =>
            simp [hc, List.range'_succ, List.filter_cons, List.range']
        | succ m =>
            simp [hc, List.range'_succ, List.filter_cons]
            congr 1
            omega

/-- Before any epoch has run, the closed form is the initial state. -/
theorem trainSpec_zero {α σ : Type} (env : Env α σ) :
    trainSpec env 0 = initState env.sched0 := by
  simp [trainSpec, initState, schedStateAt]

/-- State reached just before the scheduler step of epoch `e` (training
loader non-empty): every list has its epoch-`e` entry appended, `loss` is
bound to the final batch's loss, and the scheduler has not moved yet. -/
theorem afterEvals_spec {α σ : Type} (env : Env α σ)
    (hnB : 0 < env.traLoader.length) (e : ℕ) :
    afterEvals env e (trainSpec env e) =
      { tra_acc_list :=
          (List.range (e + 1)).map fun j => evalAccVal (env.predictAt j) env.traLoader
      , val_acc_list :=
          (List.range (e + 1)).map fun j => evalAccVal (env.predictAt j) env.valLoader
      , loss_list := (List.range (e + 1)).flatMap fun j => lossEntries env j
      , lr_list := (List.range (e + 1)).map fun j => env.getLr (schedStateAt env j)
      , running_loss := 0
      , lossVar := some (env.lossOf e (env.traLoader.length - 1))
      , sched := schedStateAt env e
      , trace := ((List.range e).flatMap fun j => epochEvents env j) ++
          (Event.lrLog (env.getLr (schedStateAt env e)) ::
            ((List.range env.traLoader.length).map fun i => Event.batch i (env.lossOf e i)) ++
            [Event.evalTrain (evalAccVal (env.predictAt e) env.traLoader),
             Event.evalValid (evalAccVal (env.predictAt e) env.valLoader)]) } := by
  rw [afterEvals, afterBatches,
    batchLoopAux_spec env e env.traLoader.length 0 (startEpoch env (trainSpec env e)) rfl]
  have hne : env.traLoader.length ≠ 0 := Nat.pos_iff_ne_zero.mp hnB
  simp [startEpoch, trainSpec, eval_model_train, eval_model_valid, lossEntries,
    List.range_succ, List.range_eq_range', hne]

/-- Epoch `e` of a completed run maps the closed form at `e` to the closed
form at `e + 1` (training loader non-empty, so `loss` is always bound when
the scheduler steps). -/
theorem epochBody_spec {α σ : Type} (env : Env α σ)
    (hnB : 0 < env.traLoader.length) (e : ℕ) :
    epochBody env e (trainSpec env e) = Except.ok (trainSpec env (e + 1)) := by
  rw [epochBody, afterEvals_spec env hnB e]
  simp [trainSpec, epochEvents, schedStateAt, List.range_succ]

/-- The epoch loop carries the closed form through any number of epochs
(training loader non-empty). -/
theorem epochLoop_spec {α σ : Type} (env : Env α σ) (hnB : 0 < env.traLoader.length) :
    ∀ (n k : ℕ), epochLoop env n k (trainSpec env k) = Except.ok (trainSpec env (k + n))
  | 0, k => by simp [epochLoop]
  | n + 1, k => by
      have hk : k + (n + 1) = (k + 1) + n := by omega
      rw [epochLoop, epochBody_spec env hnB k, hk]
      exact epochLoop_spec env hnB n (k + 1)

/-- A run of `train` with a non-empty training loader completes and its
final state is the closed form at `epoch_num`. -/
theorem runTrain_spec {α σ : Type} (env : Env α σ) (hnB : 0 < env.traLoader.length) :
    runTrain env = Except.ok (trainSpec env env.epoch_num) := by
  rw [runTrain, ← trainSpec_zero env]
  simpa using epochLoop_spec env hnB env.epoch_num 0

/-- With an empty training loader and at least one epoch, the first
epoch's `scheduler.step(loss.item())` raises `NameError`: the batch loop
never bound `loss`. -/
theorem runTrain_empty_loader {α σ : Type} (env : Env α σ)
    (hnB : env.traLoader.length = 0) (hep : 0 < env.epoch_num) :
    runTrain env = Except.error nameError := by
  obtain ⟨n, hn⟩ : ∃ n, env.epoch_num = n + 1 := ⟨env.epoch_num - 1, by omega⟩
  have hbody : epochBody env 0 (initState env.sched0) = Except.error nameError := by
    have hv : (afterEvals env 0 (initState env.sched0)).lossVar = none := by
      simp [afterEvals, afterBatches, hnB, batchLoopAux, startEpoch, initState]
    rw [epochBody, hv]
  rw [runTrain, hn, epochLoop, hbody]

/-- The accumulation loop is a single pass: it returns exactly the
concatenation of every batch's labels and of every batch's predictions,
in loader order. -/
theorem collectLabels_eq {α : Type} (predict : α → ℕ) (loader : List (List (Sample α))) :
    collectLabels predict loader =
      (loader.flatMap fun b => b.map Sample.label,
       loader.flatMap fun b => b.map fun d => predict d.mel) := by
  have haux : ∀ (l : List (List (Sample α))) (acc : List ℕ × List ℕ),
      l.foldl (fun acc batch => (acc.1 ++ batch.map Sample.label,
          acc.2 ++ batch.map fun d => predict d.mel)) acc =
        (acc.1 ++ l.flatMap fun b => b.map Sample.label,
         acc.2 ++ l.flatMap fun b => b.map fun d => predict d.mel) := by
    intro l
    induction l with
    | nil => intro acc; simp
    | cons b t ih => intro acc; simp [ih]
  simpa [collectLabels] using haux loader ([], [])

/-- `y_true` and `y_pred` always have the same length: each batch
contributes one label and one prediction per sample. -/
theorem collectLabels_length {α : Type} (predict : α → ℕ)
    (loader : List (List (Sample α))) :
    (collectLabels predict loader).1.length = (collectLabels predict loader).2.length := by
  rw [collectLabels_eq]
  induction loader with
  | nil => simp
  | cons b t ih => simp [ih]

/-- On a non-empty sample, `accuracy_score` is an ordinary number in
`[0, 1]`; on an empty sample it is `nan` (`none`). -/
theorem accuracy_score_bounds (y_true y_pred : List ℕ) (hne : y_true ≠ []) :
    ∃ a, accuracy_score y_true y_pred = some a ∧ 0 ≤ a ∧ a ≤ 1 := by
  have hpos : 0 < y_true.length := List.length_pos.mpr hne
  have h0 : ¬ y_true.length = 0 := Nat.pos_iff_ne_zero.mp hpos
  refine ⟨(((y_true.zip y_pred).countP fun p => p.1 == p.2) : ℚ) / (y_true.length : ℚ),
    ?_, ?_, ?_⟩
  · rw [accuracy_score, if_neg h0]
  · positivity
  · rw [div_le_one (by exact_mod_cast hpos)]
    have hle : (y_true.zip y_pred).countP (fun p => p.1 == p.2) ≤ y_true.length := by
      refine le_trans (List.countP_le_length _) ?_
      rw [List.length_zip]
      exact min_le_left _ _
    exact_mod_cast hle

/-- When the loader contributes at least one sample, the value appended by
either per-epoch accuracy evaluation is a number in `[0, 100]`. -/
theorem evalAccVal_bounds {α : Type} (predict : α → ℕ)
    (loader : List (List (Sample α)))
    (hne : (collectLabels predict loader).1 ≠ []) :
    ∃ a, evalAccVal predict loader = some a ∧ 0 ≤ a ∧ a ≤ 100 := by
  obtain ⟨a, ha, h0, h1⟩ :=
    accuracy_score_bounds (collectLabels predict loader).1 (collectLabels predict loader).2 hne
  refine ⟨100 * a, ?_, mul_nonneg (by norm_num) h0, ?_⟩
  · rw [evalAccVal, ha, Option.map_some']
  · calc 100 * a ≤ 100 * 1 := mul_le_mul_of_nonneg_left h1 (by norm_num)
    _ = 100 := by norm_num

/-- Summed over the inferred label set, the cells of the all-normalized
confusion matrix of a non-empty sample add up to exactly 1. -/
theorem cm_cell_sum (y_true y_pred : List ℕ)
    (hlen : y_true.length = y_pred.length) (hne : y_true ≠ []) :
    ∑ a ∈ cmLabelSet y_true y_pred, ∑ b ∈ cmLabelSet y_true y_pred,
      confusion_matrix_all y_true y_pred a b = 1 := by
  have hmem : ∀ p ∈ (↑(y_true.zip y_pred) : Multiset (ℕ × ℕ)),
      p ∈ cmLabelSet y_true y_pred ×ˢ cmLabelSet y_true y_pred := by
    intro p hp
    rw [Multiset.mem_coe] at hp
    obtain ⟨h1, h2⟩ := List.of_mem_zip (a := p.1) (b := p.2) (by simpa using hp)
    rw [Finset.mem_product]
    exact ⟨by simp [cmLabelSet, h1], by simp [cmLabelSet, h2]⟩
  have hcnt_eq : ∀ (l : List (ℕ × ℕ)) (x : ℕ × ℕ), Multiset.count x ↑l = l.count x := by
    intro l x
    induction l with
    | nil => rfl
    | cons y t ih =>
        rw [← Multiset.cons_coe, Multiset.count_cons, List.count_cons, ih]
        congr 1
        by_cases hxy : y = x
        · simp [hxy]
        · simp [hxy, Ne.symm hxy]
  have hcount : ∑ x ∈ cmLabelSet y_true y_pred ×ˢ cmLabelSet y_true y_pred,
      (y_true.zip y_pred).count x = (y_true.zip y_pred).length := by
    have h := Multiset.sum_count_eq_card hmem
    simpa [hcnt_eq] using h
  have hzlen : (y_true.zip y_pred).length = y_true.length := by
    rw [List.length_zip, hlen, min_self]
  have hq : (((y_true.zip y_pred).length : ℕ) : ℚ) ≠ 0 := by
    rw [hzlen]
    exact_mod_cast Nat.pos_iff_ne_zero.mp (List.length_pos.mpr hne)
  have hps := Finset.sum_product (s := cmLabelSet y_true y_pred)
    (t := cmLabelSet y_true y_pred)
    (f := fun x : ℕ × ℕ =>
      (((y_true.zip y_pred).count x : ℕ) : ℚ) / (((y_true.zip y_pred).length : ℕ) : ℚ))
  unfold confusion_matrix_all
  rw [← hps, ← Finset.sum_div]
  have hcq : ∑ x ∈ cmLabelSet y_true y_pred ×ˢ cmLabelSet y_true y_pred,
      (((y_true.zip y_pred).count x : ℕ) : ℚ) = (((y_true.zip y_pred).length : ℕ) : ℚ) := by
    exact_mod_cast hcount
  rw [hcq, div_self hq]

/-- Number of `loss_list` entries recorded in one epoch: one per batch
group of `iteration` batches, the trailing partial group dropped. -/
theorem lossEntries_length {α σ : Type} (env : Env α σ) (hit : 0 < env.iteration) (e : ℕ) :
    (lossEntries env e).length = env.traLoader.length / env.iteration := by
  unfold lossEntries
  rw [List.length_map, ← List.countP_eq_length_filter]
  exact countP_range_mod env.iteration hit env.traLoader.length

/-- Total `loss_list` length over `k` epochs. -/
theorem loss_list_length {α σ : Type} (env : Env α σ) (hit : 0 < env.iteration) :
    ∀ k, (((List.range k).flatMap fun e => lossEntries env e)).length =
      k * (env.traLoader.length / env.iteration)
  | 0 => by simp
  | k + 1 => by
      rw [List.range_succ, List.flatMap_append, List.length_append,
        loss_list_length env hit k]
      simp [lossEntries_length env hit]
      ring

end Train

namespace Train

/-- Decidable equality for `Except`, used to evaluate concrete runs. -/
def exceptDecEq {ε χ : Type} [DecidableEq ε] [DecidableEq χ] :
    (a b : Except ε χ) → Decidable (a = b)
  | Except.error x, Except.error y =>
      if h : x = y then isTrue (by rw [h])
      else isFalse (by intro hc; apply h; injection hc)
  | Except.error _, Except.ok _ => isFalse (fun hc => Except.noConfusion hc)
  | Except.ok _, Except.error _ => isFalse (fun hc => Except.noConfusion hc)
  | Except.ok x, Except.ok y =>
      if h : x = y then isTrue (by rw [h])
      else isFalse (by intro hc; apply h; injection hc)

instance {ε χ : Type} [DecidableEq ε] [DecidableEq χ] : DecidableEq (Except ε χ) :=
  exceptDecEq

/-- C2: after a completed run, the number of data rows `save_history`
writes to `loss.csv` — one per `loss_list` entry — equals
`epoch_num * (batches_per_epoch / iteration)` (integer division). -/
theorem loss_csv_rows_eq_epochs_times_batch_groups {α σ : Type} (env : Env α σ)
    (s : TrainState σ) (hit : 0 < env.iteration)
    (hrun : runTrain env = Except.ok s) :
    (lossCsvDataRows s.loss_list).length =
      env.epoch_num * (env.traLoader.length / env.iteration) := by
  have hrows : ∀ l : List ℚ, (lossCsvDataRows l).length = l.length := by
    intro l
    simp [lossCsvDataRows]
  rcases Nat.eq_zero_or_pos env.traLoader.length with h0 | hpos
  · rcases Nat.eq_zero_or_pos env.epoch_num with he | hpe
    · have hinit : runTrain env = Except.ok (initState env.sched0) := by
        rw [runTrain, he]; exact rfl
      rw [hinit] at hrun
      injection hrun with h
      subst h
      simp [initState, hrows, he]
    · rw [runTrain_empty_loader env h0 hpe] at hrun
      exact Except.noConfusion hrun
  · rw [runTrain_spec env hpos] at hrun
    injection hrun with h
    subst h
    rw [hrows]
    exact loss_list_length env hit env.epoch_num

/-- C3: in every epoch of a completed run, the scheduler is stepped
exactly once — strictly after the train- and validation-accuracy
evaluations, as the closing events of the epoch's trace segment — and the
value passed to `scheduler.step` is the loss of that epoch's final
mini-batch, `lossOf e (batches - 1)`, not an epoch average. -/
theorem scheduler_steps_once_per_epoch_on_last_batch_loss {α σ : Type}
    (env : Env α σ) (s : TrainState σ) (hnB : 0 < env.traLoader.length)
    (hrun : runTrain env = Except.ok s) :
    s.trace = (List.range env.epoch_num).flatMap (fun e => epochEvents env e) ∧
    (∀ e, (epochEvents env e).countP Event.isSched = 1) ∧
    (∀ e, ∃ pre, epochEvents env e = pre ++
        [Event.evalTrain (evalAccVal (env.predictAt e) env.traLoader),
         Event.evalValid (evalAccVal (env.predictAt e) env.valLoader),
         Event.sched (env.lossOf e (env.traLoader.length - 1))]) := by
  refine ⟨?_, ?_, ?_⟩
  · rw [runTrain_spec env hnB] at hrun
    injection hrun with h
    subst h
    rfl
  · intro e
    simp [epochEvents, List.countP_cons, List.countP_append, List.countP_map,
      Function.comp, Event.isSched]
  · intro e
    refine ⟨Event.lrLog (env.getLr (schedStateAt env e)) ::
      ((List.range env.traLoader.length).map fun i => Event.batch i (env.lossOf e i)), ?_⟩
    simp [epochEvents]

/-- C4: the learning rate recorded for epoch `e` is the optimizer's rate
entering that epoch — `getLr` of the scheduler state before that epoch's
`schedStep` — the scheduler state only advances by one `schedStep` at each
epoch's end, and in the trace the `lrLog` event opens its epoch's segment,
before every batch event and before that epoch's `sched` event. -/
theorem lr_logged_before_batches_and_scheduler_step {α σ : Type}
    (env : Env α σ) (s : TrainState σ) (hnB : 0 < env.traLoader.length)
    (hrun : runTrain env = Except.ok s) :
    s.lr_list = (List.range env.epoch_num).map (fun e => env.getLr (schedStateAt env e)) ∧
    (∀ e, schedStateAt env (e + 1) =
      env.schedStep (schedStateAt env e) (env.lossOf e (env.traLoader.length - 1))) ∧
    (∀ e, ∃ rest, epochEvents env e =
      Event.lrLog (env.getLr (schedStateAt env e)) :: rest) ∧
    s.trace = (List.range env.epoch_num).flatMap (fun e => epochEvents env e) := by
  rw [runTrain_spec env hnB] at hrun
  injection hrun with h
  subst h
  exact ⟨rfl, fun e => rfl, fun e => ⟨_, rfl⟩, rfl⟩

/-- C5: a completed run appends exactly one entry per epoch to each of
`tra_acc_list`, `val_acc_list` and `lr_list`, so all three have length
`epoch_num`. -/
theorem tracking_lists_aligned_lengths {α σ : Type} (env : Env α σ)
    (s : TrainState σ) (hrun : runTrain env = Except.ok s) :
    s.tra_acc_list.length = env.epoch_num ∧
    s.val_acc_list.length = env.epoch_num ∧
    s.lr_list.length = env.epoch_num := by
  rcases Nat.eq_zero_or_pos env.traLoader.length with h0 | hpos
  · rcases Nat.eq_zero_or_pos env.epoch_num with he | hpe
    · have hinit : runTrain env = Except.ok (initState env.sched0) := by
        rw [runTrain, he]; exact rfl
      rw [hinit] at hrun
      injection hrun with h
      subst h
      simp [initState, he]
    · rw [runTrain_empty_loader env h0 hpe] at hrun
      exact Except.noConfusion hrun
  · rw [runTrain_spec env hpos] at hrun
    injection hrun with h
    subst h
    simp [trainSpec]

/-- C10: if the training loader yields no batches, the first epoch's
`scheduler.step(loss.item())` references the never-bound local `loss` and
raises `NameError`; with a non-empty training loader every epoch binds
`loss` and the epoch loop completes without error. -/
theorem empty_loader_name_error_nonempty_ok {α σ : Type} (env : Env α σ) :
    (env.traLoader.length = 0 → 0 < env.epoch_num →
      runTrain env = Except.error nameError) ∧
    (0 < env.traLoader.length → ∃ s, runTrain env = Except.ok s) :=
  ⟨fun h0 hep => runTrain_empty_loader env h0 hep,
   fun hnB => ⟨trainSpec env env.epoch_num, runTrain_spec env hnB⟩⟩

/-- C6: `eval_model_test` is determined by a single pass over the test
loader: its `y_true` is the concatenation of all batch labels, its
`y_pred` the concatenation of all batch predictions, and it returns the
per-class precision/recall/F1 report (one row per class name) paired with
the confusion matrix normalized over all cells. -/
theorem eval_model_test_single_pass_report_and_normalized_cm {α : Type}
    (predict : α → ℕ) (testLoader : List (List (Sample α))) (classes : List String) :
    eval_model_test predict testLoader classes =
      (classification_report (testLoader.flatMap fun b => b.map Sample.label)
        (testLoader.flatMap fun b => b.map fun d => predict d.mel) classes.length,
       confusion_matrix_all (testLoader.flatMap fun b => b.map Sample.label)
        (testLoader.flatMap fun b => b.map fun d => predict d.mel)) ∧
    (eval_model_test predict testLoader classes).1.length = classes.length := by
  constructor
  · rw [eval_model_test, collectLabels_eq]
  · simp [eval_model_test, classification_report]

/-- C7: over the inferred label set, the entries of the all-normalized
confusion matrix returned by `eval_model_test` on a non-empty test set sum
to exactly 1 (exact in `ℚ`; the float computation agrees within
tolerance). -/
theorem normalized_cm_sums_to_one {α : Type} (predict : α → ℕ)
    (testLoader : List (List (Sample α))) (classes : List String)
    (hne : (collectLabels predict testLoader).1 ≠ []) :
    ∑ a ∈ cmLabelSet (collectLabels predict testLoader).1
        (collectLabels predict testLoader).2,
      ∑ b ∈ cmLabelSet (collectLabels predict testLoader).1
          (collectLabels predict testLoader).2,
        (eval_model_test predict testLoader classes).2 a b = 1 :=
  cm_cell_sum (collectLabels predict testLoader).1 (collectLabels predict testLoader).2
    (collectLabels_length predict testLoader) hne

/-- C8 (amended): whenever each loader contributes at least one sample,
the accuracy `eval_model_train` appends to `tra_acc_list` and the accuracy
`eval_model_valid` appends to `val_acc_list` are numbers in the closed
interval `[0, 100]`, one appended value per call.  (On an empty collection
the appended value is instead `nan`; see the companion refutation.) -/
theorem eval_accuracies_in_range_of_nonempty {α : Type} (predict : α → ℕ)
    (trainLoader validationLoader : List (List (Sample α)))
    (tra_acc_list val_acc_list : List (Option ℚ))
    (htra : (collectLabels predict trainLoader).1 ≠ [])
    (hval : (collectLabels predict validationLoader).1 ≠ []) :
    ∃ a b, eval_model_train predict trainLoader tra_acc_list = tra_acc_list ++ [some a] ∧
      0 ≤ a ∧ a ≤ 100 ∧
      eval_model_valid predict validationLoader val_acc_list = val_acc_list ++ [some b] ∧
      0 ≤ b ∧ b ≤ 100 := by
  obtain ⟨a, ha, h1, h2⟩ := evalAccVal_bounds predict trainLoader htra
  obtain ⟨b, hb, h3, h4⟩ := evalAccVal_bounds predict validationLoader hval
  exact ⟨a, b, by rw [eval_model_train, ha], h1, h2,
    by rw [eval_model_valid, hb], h3, h4⟩

/-- C8 (refuted as stated, at the empty loader): with no samples,
sklearn's `accuracy_score` is `nan` — `np.average` of an empty array, the
RuntimeWarning suppressed by line 223 — so `eval_model_valid` appends
`100.0 * nan = nan`, a value that is no rational in `[0, 100]`. -/
theorem eval_acc_empty_appends_nan :
    eval_model_valid (fun _ : Unit => 0) ([] : List (List (Sample Unit))) [] =
      [evalAccVal (fun _ : Unit => 0) ([] : List (List (Sample Unit)))] ∧
    evalAccVal (fun _ : Unit => 0) ([] : List (List (Sample Unit))) = none ∧
    ¬ ∃ q : ℚ,
        evalAccVal (fun _ : Unit => 0) ([] : List (List (Sample Unit))) = some q ∧
        0 ≤ q ∧ q ≤ 100 := by
  have hnone : evalAccVal (fun _ : Unit => 0) ([] : List (List (Sample Unit))) = none := rfl
  refine ⟨rfl, hnone, ?_⟩
  rintro ⟨q, hq, -, -⟩
  rw [hnone] at hq
  exact Option.noConfusion hq

/-- Witness for the amended C8 at a one-sample loader. -/
theorem eval_accuracies_witness :
    (collectLabels (fun _ : Unit => 0) [[⟨(), 0⟩]]).1 ≠ [] ∧
    ∃ a b, eval_model_train (fun _ : Unit => 0) [[⟨(), 0⟩]] [] = [some a] ∧
      0 ≤ a ∧ a ≤ 100 ∧
      eval_model_valid (fun _ : Unit => 0) [[⟨(), 0⟩]] [] = [some b] ∧
      0 ≤ b ∧ b ≤ 100 :=
  ⟨by decide,
    eval_accuracies_in_range_of_nonempty (fun _ : Unit => 0) [[⟨(), 0⟩]] [[⟨(), 0⟩]]
      [] [] (by decide) (by decide)⟩

/-- C9: `argparse` with `type=bool` applies Python's `bool()` to the
supplied string, which is `True` for every non-empty string — including
the string "False" — so any invocation passing `--fl` with a non-empty
value makes line 139 select the focal-loss criterion. -/
theorem nonempty_fl_string_selects_focal_loss (v : String) (hv : v ≠ "") :
    pyBool v = true ∧ chooseCriterion (pyBool v) = Criterion.focalLoss := by
  have hb : pyBool v = true := by
    cases hie : v.isEmpty with
    | false => simp [pyBool, hie]
    | true => exact absurd ((String.isEmpty_iff v).mp hie) hv
  exact ⟨hb, by rw [hb]; rfl⟩

/-- Concrete run exhibiting the `loss_list` recording: two batches with
losses 3 and 5, `iteration = 2`, one epoch. -/
def cenvC1 : Env Unit ℚ :=
  { traLoader := [[⟨(), 0⟩], [⟨(), 1⟩]]
  , valLoader := [[⟨(), 0⟩]]
  , predictAt := fun _ _ => 0
  , lossOf := fun _ i => if i = 0 then 3 else 5
  , epoch_num := 1
  , iteration := 2
  , getLr := id
  , schedStep := fun r _ => r
  , sched0 := 1 / 1000 }

/-- C1 (refuted; the spec describes the intended accumulate-then-reset
pattern): with `iteration = 2` and batch losses 3 then 5, the single
recorded entry is `5/2` — the final batch's loss divided by `iteration` —
not the group mean `(3+5)/2 = 4`, because line 200 resets `running_loss`
after every batch (it sits outside the `if i % iteration == iteration - 1`
block), while the division by `iteration` presupposes a sum of `iteration`
per-batch losses. -/
theorem loss_record_is_last_batch_loss_not_group_mean :
    runTrain cenvC1 = Except.ok (trainSpec cenvC1 1) ∧
    (trainSpec cenvC1 1).loss_list = [5 / 2] ∧
    ((5 : ℚ) / 2 ≠ (3 + 5) / 2) := by
  refine ⟨runTrain_spec cenvC1 (by decide), ?_, by norm_num⟩
  simp [trainSpec, lossEntries, cenvC1, List.range_succ]

/-- Concrete environment for the loss-row-count witness: 2 epochs, 3
batches per epoch, `iteration = 2`. -/
def cenvC2 : Env Unit ℚ :=
  { traLoader := [[⟨(), 0⟩], [⟨(), 1⟩], [⟨(), 0⟩]]
  , valLoader := [[⟨(), 0⟩]]
  , predictAt := fun _ _ => 0
  , lossOf := fun e i => (e : ℚ) + i
  , epoch_num := 2
  , iteration := 2
  , getLr := id
  , schedStep := fun r _ => r
  , sched0 := 1 / 1000 }

/-- Witness for C2 at `cenvC2`: 2 epochs × (3 / 2) groups = 2 rows. -/
theorem loss_csv_rows_witness :
    0 < cenvC2.iteration ∧
    ∃ s, runTrain cenvC2 = Except.ok s ∧
      (lossCsvDataRows s.loss_list).length =
        cenvC2.epoch_num * (cenvC2.traLoader.length / cenvC2.iteration) :=
  ⟨by decide, trainSpec cenvC2 cenvC2.epoch_num, runTrain_spec cenvC2 (by decide),
    loss_csv_rows_eq_epochs_times_batch_groups cenvC2 _ (by decide)
      (runTrain_spec cenvC2 (by decide))⟩

/-- Concrete environment for the scheduler witness. -/
def cenvC3 : Env Unit ℚ :=
  { traLoader := [[⟨(), 0⟩], [⟨(), 1⟩]]
  , valLoader := [[⟨(), 1⟩]]
  , predictAt := fun _ _ => 1
  , lossOf := fun e i => (e : ℚ) + 2 * i
  , epoch_num := 2
  , iteration := 10
  , getLr := id
  , schedStep := fun r _ => r / 10
  , sched0 := 1 / 1000 }

/-- Witness for C3 at `cenvC3`. -/
theorem scheduler_steps_witness :
    ∃ s, runTrain cenvC3 = Except.ok s ∧
      s.trace = (List.range cenvC3.epoch_num).flatMap (fun e => epochEvents cenvC3 e) :=
  ⟨trainSpec cenvC3 cenvC3.epoch_num, runTrain_spec cenvC3 (by decide),
    (scheduler_steps_once_per_epoch_on_last_batch_loss cenvC3 _ (by decide)
      (runTrain_spec cenvC3 (by decide))).1⟩

/-- Concrete environment for the learning-rate-log witness. -/
def cenvC4 : Env Unit ℚ :=
  { traLoader := [[⟨(), 1⟩]]
  , valLoader := [[⟨(), 0⟩]]
  , predictAt := fun _ _ => 0
  , lossOf := fun e i => (e : ℚ) + i + 1
  , epoch_num := 3
  , iteration := 10
  , getLr := id
  , schedStep := fun r _ => r / 10
  , sched0 := 1 / 100 }

/-- Witness for C4 at `cenvC4`. -/
theorem lr_logged_witness :
    ∃ s, runTrain cenvC4 = Except.ok s ∧
      s.lr_list =
        (List.range cenvC4.epoch_num).map (fun e => cenvC4.getLr (schedStateAt cenvC4 e)) :=
  ⟨trainSpec cenvC4 cenvC4.epoch_num, runTrain_spec cenvC4 (by decide),
    (lr_logged_before_batches_and_scheduler_step cenvC4 _ (by decide)
      (runTrain_spec cenvC4 (by decide))).1⟩

/-- Concrete environment for the list-alignment witness. -/
def cenvC5 : Env Unit ℚ :=
  { traLoader := [[⟨(), 0⟩, ⟨(), 1⟩]]
  , valLoader := [[⟨(), 1⟩]]
  , predictAt := fun _ _ => 0
  , lossOf := fun e i => (e : ℚ) + i
  , epoch_num := 2
  , iteration := 1
  , getLr := id
  , schedStep := fun r _ => r
  , sched0 := 1 / 1000 }

/-- Witness for C5 at `cenvC5`. -/
theorem tracking_lists_witness :
    ∃ s, runTrain cenvC5 = Except.ok s ∧
      s.tra_acc_list.length = cenvC5.epoch_num ∧
      s.val_acc_list.length = cenvC5.epoch_num ∧
      s.lr_list.length = cenvC5.epoch_num :=
  ⟨trainSpec cenvC5 cenvC5.epoch_num, runTrain_spec cenvC5 (by decide),
    tracking_lists_aligned_lengths cenvC5 _ (runTrain_spec cenvC5 (by decide))⟩

/-- Concrete test loader for the confusion-matrix witness: two samples
with labels 0 and 1, both predicted 0. -/
def testLoaderC7 : List (List (Sample Unit)) := [[⟨(), 0⟩, ⟨(), 1⟩]]

/-- Constant-zero predictor for the confusion-matrix witness. -/
def predictC7 : Unit → ℕ := fun _ => 0

/-- Witness for C7 at `testLoaderC7`. -/
theorem normalized_cm_sums_to_one_witness :
    (collectLabels predictC7 testLoaderC7).1 ≠ [] ∧
    ∑ a ∈ cmLabelSet (collectLabels predictC7 testLoaderC7).1
        (collectLabels predictC7 testLoaderC7).2,
      ∑ b ∈ cmLabelSet (collectLabels predictC7 testLoaderC7).1
          (collectLabels predictC7 testLoaderC7).2,
        (eval_model_test predictC7 testLoaderC7 ["class0", "class1"]).2 a b = 1 :=
  ⟨by decide,
    normalized_cm_sums_to_one predictC7 testLoaderC7 ["class0", "class1"] (by decide)⟩

/-- Witness for C9 at the string "False". -/
theorem nonempty_fl_string_witness :
    ("False" : String) ≠ "" ∧ pyBool "False" = true ∧
      chooseCriterion (pyBool "False") = Criterion.focalLoss :=
  ⟨by decide, nonempty_fl_string_selects_focal_loss "False" (by decide)⟩

/-- Environment with an empty training loader and one epoch. -/
def cenvEmpty : Env Unit ℚ :=
  { traLoader := []
  , valLoader := [[⟨(), 0⟩]]
  , predictAt := fun _ _ => 0
  , lossOf := fun _ _ => 0
  , epoch_num := 1
  , iteration := 10
  , getLr := id
  , schedStep := fun r _ => r
  , sched0 := 1 / 1000 }

/-- Environment with a one-batch training loader and one epoch. -/
def cenvOne : Env Unit ℚ :=
  { traLoader := [[⟨(), 0⟩]]
  , valLoader := [[⟨(), 0⟩]]
  , predictAt := fun _ _ => 0
  , lossOf := fun _ _ => 1
  , epoch_num := 1
  , iteration := 10
  , getLr := id
  , schedStep := fun r _ => r
  , sched0 := 1 / 1000 }

/-- Witness for C10: the empty loader raises `NameError` in epoch 1; the
one-batch loader completes. -/
theorem empty_loader_witness :
    runTrain cenvEmpty = Except.error nameError ∧
    ∃ s, runTrain cenvOne = Except.ok s :=
  ⟨(empty_loader_name_error_nonempty_ok cenvEmpty).1 (by decide) (by decide),
   (empty_loader_name_error_nonempty_ok cenvOne).2 (by decide)⟩

end Train
